import Mathlib

/-!
Shallow embedding of the Email Lifecycle Coordinator (`src/temp.py`) and
verification of the frozen claims about it.

The program is a temp-mail Telegram bot:
* Store: a MongoDB `users` collection, modelled as a list of user documents,
  each holding a `user_id` and a list of email records.
* `TempMailBot._generate_email`: provisioning (Cloudflare routing-rule
  creation + store append on success).
* `EmailHandler.check_emails` / `EmailHandler.sanitize_content`: mail relay
  (recipient extraction, owner lookup, sanitization, truncation, delivery,
  source deletion).
* `TempMailBot._delete_expired_emails`: expiry sweep (remote rule listing,
  substring-matched rule deletion, record removal).

Remote systems (Cloudflare API, IMAP, Telegram) are modelled as explicit
environments; a Python call that may raise an uncaught exception is modelled
as `Except`, with `.error` the raised exception.
-/

namespace TempMail

/-! ## Store data model (MongoDB `users` collection) -/

/-- One element of a user document's `emails` array, as built by
`_generate_email`: `{"address": ..., "expiry": ..., "created_at": ...}`.
Timestamps are naive seconds. -/
structure EmailRecord where
  address : String
  expiry : Nat
  created_at : Nat
deriving DecidableEq, Repr

/-- One document of the `users` collection. -/
structure UserDoc where
  user_id : Nat
  emails : List EmailRecord
deriving DecidableEq, Repr

/-- The `users` collection in natural (insertion) order. -/
abbrev Store := List UserDoc

/-- `users.find_one({"emails.address": addr})`: first document whose `emails`
array contains an element with the given address. -/
def findOwnerByAddress (st : Store) (addr : String) : Option UserDoc :=
  st.find? (fun u => u.emails.any (fun e => e.address == addr))

/-- `users.update_one({"user_id": uid}, {"$push": {"emails": rec}}, upsert=True)`:
push onto the first document matching `user_id`, inserting a fresh document
when none matches. -/
def addRecord : Store → Nat → EmailRecord → Store
  | [], uid, rec => [⟨uid, [rec]⟩]
  | u :: us, uid, rec =>
    if u.user_id = uid then { u with emails := u.emails ++ [rec] } :: us
    else u :: addRecord us uid rec

/-- `users.update_one({"user_id": uid}, {"$pull": {"emails": {"address": addr}}})`:
remove every email element with the given address from the first document
matching `user_id`. -/
def removeRecord : Store → Nat → String → Store
  | [], _, _ => []
  | u :: us, uid, addr =>
    if u.user_id = uid then
      { u with emails := u.emails.filter (fun e => !(e.address == addr)) } :: us
    else u :: removeRecord us uid addr

/-- The aggregation `[$unwind "$emails", $match {"emails.expiry": {"$lte": now}}]`:
every `(user_id, address)` pair whose record is past expiry, in document and
array order. -/
def findExpired (st : Store) (now : Nat) : List (Nat × String) :=
  st.flatMap (fun u =>
    (u.emails.filter (fun e => e.expiry ≤ now)).map (fun e => (u.user_id, e.address)))

/-- No document for owner `uid` holds a record with address `addr`. -/
def NoRecord (st : Store) (uid : Nat) (addr : String) : Prop :=
  ∀ u ∈ st, u.user_id = uid → ∀ e ∈ u.emails, e.address ≠ addr

instance (st : Store) (uid : Nat) (addr : String) : Decidable (NoRecord st uid addr) :=
  List.decidableBAll _ st

/-! ## Address provisioning (`TempMailBot._generate_email`) -/

/-- Decoded JSON body of `CloudflareManager.create_email_rule`: the
`success` field (`response.get('success')`, missing treated as false) and the
`errors` list's messages. -/
structure CfResponse where
  success : Bool
  errors : List String
deriving DecidableEq, Repr

/-- The email record built in the success branch of `_generate_email`.
`datetime.now()` is called twice while building the dict: `t1` is the clock
reading used for `"expiry": datetime.now() + timedelta(days=1)` and `t2` the
later reading used for `"created_at": datetime.now()`. -/
def mkEmailRecord (address : String) (t1 t2 : Nat) : EmailRecord :=
  { address := address, expiry := t1 + 86400, created_at := t2 }

/-- Observable outcome of the `/genemail` handler. -/
inductive GenOutcome where
  | created (r : EmailRecord)
  | failed (msg : String)
  | crashed (e : String)
  | unavailable
deriving DecidableEq, Repr

/-- `TempMailBot._generate_email`.  `envVarsOk` is the required-environment
check; `cf` is the result of `CloudflareManager.create_email_rule(email)`,
whose `.error` case models the uncaught exception raised when the HTTP
response body is not JSON (a `RequestException` is caught inside
`create_email_rule` and yields an ordinary `success: False` dict). -/
def generate_email (envVarsOk : Bool) (cf : Except String CfResponse) (st : Store)
    (uid : Nat) (email : String) (t1 t2 : Nat) : Store × GenOutcome :=
  if !envVarsOk then (st, .unavailable)
  else
    match cf with
    | .error e => (st, .crashed e)
    | .ok resp =>
      if resp.success then
        (addRecord st uid (mkEmailRecord email t1 t2), .created (mkEmailRecord email t1 t2))
      else
        (st, .failed (match resp.errors with
          | [] => "Internal error"
          | e :: _ => e))

/-- The provisioning call did not take the success branch: the environment
check failed, or the Cloudflare call raised, or the response was not a
success. -/
def genFails (envVarsOk : Bool) (cf : Except String CfResponse) : Bool :=
  !envVarsOk ||
    match cf with
    | .error _ => true
    | .ok resp => !resp.success

/-! ## Relay truncation (`EmailHandler.check_emails`, lines 103-104) -/

/-- The literal appended by `email_content[:4000] + "\n... [truncated]"`. -/
def TRUNC_MARKER : List Char := "\n... [truncated]".data

/-- `if len(email_content) > 4000: email_content = email_content[:4000] + marker`. -/
def truncateContent (content : List Char) : List Char :=
  if content.length > 4000 then content.take 4000 ++ TRUNC_MARKER else content

/-! ## Claims C4, C7, C8 -/

/-- Claim C4, corrected.  The two clock readings in `_generate_email` are
distinct calls, so the stored record satisfies `expiry = t1 + 24h` with
`created_at = t2` a second, later reading: `expiry = created_at + 24h` holds
exactly when the two readings coincide, and in general only
`expiry ≤ created_at + 24h`. -/
theorem C4_thm (addr : String) (t1 t2 : Nat) (h : t1 ≤ t2) :
    (mkEmailRecord addr t1 t2).expiry = t1 + 86400 ∧
    (mkEmailRecord addr t1 t2).expiry ≤ (mkEmailRecord addr t1 t2).created_at + 86400 ∧
    (t1 = t2 → (mkEmailRecord addr t1 t2).expiry = (mkEmailRecord addr t1 t2).created_at + 86400) := by
  refine ⟨rfl, ?_, fun he => by simp [mkEmailRecord, he]⟩
  simp only [mkEmailRecord]
  omega

/-- Witness for C4_thm at `t1 = t2 = 3`. -/
theorem C4_thm_w :
    (3 ≤ 3 ∧ (3 : Nat) = 3) ∧
    (mkEmailRecord "a@d" 3 3).expiry = (mkEmailRecord "a@d" 3 3).created_at + 86400 :=
  ⟨⟨by decide, rfl⟩, (C4_thm "a@d" 3 3 (by decide)).2.2 rfl⟩

/-- Counterexample for claim C4 as stated: a successful provisioning whose
first clock reading is `0` and second is `1` stores a record with
`expiry = 86400` and `created_at = 1`, and `86400 ≠ 1 + 86400`. -/
theorem C4_cex :
    (generate_email true (.ok ⟨true, []⟩) [] 5 "a@d" 0 1).1 =
      [⟨5, [mkEmailRecord "a@d" 0 1]⟩] ∧
    (mkEmailRecord "a@d" 0 1).expiry ≠ (mkEmailRecord "a@d" 0 1).created_at + 86400 := by
  constructor
  · rfl
  · decide

/-- Claim C7, confirmed.  A provisioning request that does not reach the
success branch (missing configuration, raised Cloudflare call, or a
non-success response — rate limiting and transport errors included, both of
which surface as `success: False` dicts) leaves the Store unchanged, so a
reverse lookup for a candidate address that was fresh beforehand still finds
no owner. -/
theorem C7_thm (envVarsOk : Bool) (cf : Except String CfResponse) (st : Store)
    (uid : Nat) (email : String) (t1 t2 : Nat)
    (hfail : genFails envVarsOk cf = true) :
    (generate_email envVarsOk cf st uid email t1 t2).1 = st ∧
    (findOwnerByAddress st email = none →
      findOwnerByAddress (generate_email envVarsOk cf st uid email t1 t2).1 email = none) := by
  have hst : (generate_email envVarsOk cf st uid email t1 t2).1 = st := by
    cases envVarsOk with
    | false => simp [generate_email]
    | true =>
      cases cf with
      | error e => simp [generate_email]
      | ok resp =>
        have hs : resp.success = false := by
          simpa [genFails] using hfail
        simp [generate_email, hs]
  exact ⟨hst, fun h => by rw [hst]; exact h⟩

/-- Witness for C7_thm: a rate-limited response against a one-owner store. -/
theorem C7_thm_w :
    (genFails true (.ok ⟨false, ["Rate limit exceeded"]⟩) = true ∧
      findOwnerByAddress [⟨1, [⟨"a@d", 5, 0⟩]⟩] "zz@d" = none) ∧
    findOwnerByAddress
      (generate_email true (.ok ⟨false, ["Rate limit exceeded"]⟩)
        [⟨1, [⟨"a@d", 5, 0⟩]⟩] 9 "zz@d" 0 0).1 "zz@d" = none :=
  ⟨⟨by decide, by decide⟩,
    (C7_thm true (.ok ⟨false, ["Rate limit exceeded"]⟩) [⟨1, [⟨"a@d", 5, 0⟩]⟩]
      9 "zz@d" 0 0 (by decide)).2 (by decide)⟩

/-- Claim C8, confirmed.  A composite exceeding 4000 characters is delivered
as its first 4000 characters followed by the truncation marker, with total
length `4000 + len(marker)`; a composite of at most 4000 characters is
delivered unmodified (the fixed literal-block wrapper around the composite is
applied after truncation and is not part of the composite). -/
theorem C8_thm (s : List Char) :
    (s.length > 4000 →
      truncateContent s = s.take 4000 ++ TRUNC_MARKER ∧
      (truncateContent s).length = 4000 + TRUNC_MARKER.length) ∧
    (s.length ≤ 4000 → truncateContent s = s) := by
  constructor
  · intro h
    have he : truncateContent s = s.take 4000 ++ TRUNC_MARKER := by
      simp [truncateContent, h]
    refine ⟨he, ?_⟩
    rw [he]
    simp [List.length_append, List.length_take, Nat.min_eq_left (Nat.le_of_lt h)]
  · intro h
    simp [truncateContent, Nat.not_lt.mpr h]

/-- A 4001-character composite, for the C8 witness. -/
def longContent : List Char := List.replicate 4001 'a'

/-- Witness for C8_thm: both branches at concrete inputs. -/
theorem C8_thm_w :
    (longContent.length > 4000 ∧
      truncateContent longContent = longContent.take 4000 ++ TRUNC_MARKER) ∧
    ("hi".data.length ≤ 4000 ∧ truncateContent "hi".data = "hi".data) :=
  ⟨⟨by simp only [longContent, List.length_replicate]; omega,
    (C8_thm longContent).1 (by simp only [longContent, List.length_replicate]; omega) |>.1⟩,
   ⟨by decide, (C8_thm "hi".data).2 (by decide)⟩⟩

/-! ## Sanitization (`EmailHandler.sanitize_content`) -/

/-- The character class of the regex
`([\_\*\[\]\(\)\~\x60\>#\+\-=\|\x7b\x7d\.!])`, by codepoint:
underscore, asterisk, both square brackets, both parentheses, tilde,
backtick, greater-than, hash, plus, hyphen, equals, pipe, both curly
braces, period, exclamation mark. -/
def isStructural (c : Char) : Bool :=
  c.toNat == 95 || c.toNat == 42 || c.toNat == 91 || c.toNat == 93 ||
  c.toNat == 40 || c.toNat == 41 || c.toNat == 126 || c.toNat == 96 ||
  c.toNat == 62 || c.toNat == 35 || c.toNat == 43 || c.toNat == 45 ||
  c.toNat == 61 || c.toNat == 124 || c.toNat == 123 || c.toNat == 125 ||
  c.toNat == 46 || c.toNat == 33

/-- The first pass of `sanitize_content`:
`re.sub(pattern, r'\\\1', text)` prefixes every structural character with a
backslash; single-character non-overlapping matches make this a per-character
expansion. -/
def escapeStructural : List Char → List Char
  | [] => []
  | c :: cs => (if isStructural c then ['\\', c] else [c]) ++ escapeStructural cs

/-- The second pass of `sanitize_content`:
`text.encode('ascii', 'ignore').decode()` drops every codepoint above 127 and
keeps the rest (ASCII control characters included). -/
def stripNonAscii (cs : List Char) : List Char :=
  cs.filter (fun c => c.toNat ≤ 127)

/-- `EmailHandler.sanitize_content`: escape, then strip. -/
def sanitize_content (cs : List Char) : List Char :=
  stripNonAscii (escapeStructural cs)

/-- Every occurrence of a structural character is immediately preceded by an
escape backslash. -/
inductive Escaped : List Char → Prop
  | nil : Escaped []
  | esc (c : Char) (h : isStructural c = true) (rest : List Char) :
      Escaped rest → Escaped ('\\' :: c :: rest)
  | plain (c : Char) (h : isStructural c = false) (rest : List Char) :
      Escaped rest → Escaped (c :: rest)

theorem isStructural_ascii {c : Char} (h : isStructural c = true) : c.toNat ≤ 127 := by
  simp only [isStructural, Bool.or_eq_true, beq_iff_eq] at h
  omega

theorem stripNonAscii_cons_keep (c : Char) (cs : List Char) (h : c.toNat ≤ 127) :
    stripNonAscii (c :: cs) = c :: stripNonAscii cs := by
  simp [stripNonAscii, List.filter_cons, h]

theorem stripNonAscii_cons_drop (c : Char) (cs : List Char) (h : ¬ c.toNat ≤ 127) :
    stripNonAscii (c :: cs) = stripNonAscii cs := by
  simp [stripNonAscii, List.filter_cons, h]

/-- Fused per-character characterization of `sanitize_content` (structural
characters are all ASCII, so escaping and ASCII stripping commute). -/
theorem sanitize_content_cons (c : Char) (cs : List Char) :
    sanitize_content (c :: cs) =
      (if c.toNat ≤ 127 then (if isStructural c then ['\\', c] else [c]) else []) ++
        sanitize_content cs := by
  by_cases hs : isStructural c = true
  · have ha : c.toNat ≤ 127 := isStructural_ascii hs
    have hb : ('\\' : Char).toNat ≤ 127 := by decide
    simp only [sanitize_content, escapeStructural, hs, if_pos ha, if_true, stripNonAscii,
      List.filter_append]
    rw [← stripNonAscii, ← stripNonAscii, stripNonAscii_cons_keep _ _ hb,
      stripNonAscii_cons_keep _ _ ha]
    rfl
  · have hs' : isStructural c = false := by simpa using hs
    by_cases ha : c.toNat ≤ 127
    · simp only [sanitize_content, escapeStructural, hs', if_pos ha, Bool.false_eq_true,
        if_false, stripNonAscii, List.filter_append]
      rw [← stripNonAscii, ← stripNonAscii, stripNonAscii_cons_keep _ _ ha]
      rfl
    · simp only [sanitize_content, escapeStructural, hs', if_neg ha, Bool.false_eq_true,
        if_false, stripNonAscii, List.filter_append]
      rw [← stripNonAscii, ← stripNonAscii, stripNonAscii_cons_drop _ _ ha]
      rfl

theorem escaped_sanitize (cs : List Char) : Escaped (sanitize_content cs) := by
  induction cs with
  | nil => exact Escaped.nil
  | cons c cs ih =>
    rw [sanitize_content_cons]
    by_cases ha : c.toNat ≤ 127
    · rw [if_pos ha]
      by_cases hs : isStructural c = true
      · rw [if_pos hs]
        exact Escaped.esc c hs _ ih
      · rw [if_neg hs]
        exact Escaped.plain c (by simpa using hs) _ ih
    · rw [if_neg ha]
      simpa using ih

/-- On text free of structural characters and of non-ASCII codepoints,
`sanitize_content` is the identity. -/
theorem sanitize_noop (cs : List Char)
    (h : ∀ c ∈ cs, isStructural c = false ∧ c.toNat ≤ 127) :
    sanitize_content cs = cs := by
  induction cs with
  | nil => rfl
  | cons c cs ih =>
    obtain ⟨hs, ha⟩ := h c (List.mem_cons_self c cs)
    rw [sanitize_content_cons, if_pos ha, if_neg (by simp [hs]),
      ih (fun c hc => h c (List.mem_cons_of_mem _ hc))]
    rfl

/-- Claim C5, corrected.  Sanitization escapes every occurrence of each
structural character and is a no-op (hence idempotent) on text already free
of those characters and of non-ASCII codepoints; it is NOT idempotent in
general — on input containing a structural character a second application
inserts a further escape before that character. -/
theorem C5_thm (cs : List Char) :
    Escaped (sanitize_content cs) ∧
    ((∀ c ∈ cs, isStructural c = false ∧ c.toNat ≤ 127) →
      sanitize_content cs = cs ∧
      sanitize_content (sanitize_content cs) = sanitize_content cs) := by
  refine ⟨escaped_sanitize cs, fun h => ?_⟩
  have h1 := sanitize_noop cs h
  exact ⟨h1, by rw [h1, h1]⟩

/-- Witness for C5_thm on the clean text `hello`. -/
theorem C5_thm_w :
    (∀ c ∈ "hello".data, isStructural c = false ∧ c.toNat ≤ 127) ∧
    sanitize_content "hello".data = "hello".data :=
  ⟨by decide, ((C5_thm "hello".data).2 (by decide)).1⟩

/-- Counterexample for claim C5 as stated: on the one-character input `.`
applying sanitization twice yields a different string than applying it once
(the escape backslash is not protected against re-escaping of the
structural character it precedes). -/
theorem C5_cex :
    sanitize_content (sanitize_content ['.']) ≠ sanitize_content ['.'] ∧
    sanitize_content ['.'] = ['\\', '.'] ∧
    sanitize_content ['\\', '.'] = ['\\', '\\', '.'] := by
  refine ⟨?_, rfl, rfl⟩
  decide

/-- Claim C6, corrected.  The output of `sanitize_content` contains no
codepoint above 127 — but ASCII control characters are NOT stripped:
`encode('ascii', 'ignore')` only drops non-ASCII codepoints, so characters
outside the printable ASCII range survive. -/
theorem C6_thm (cs : List Char) : ∀ c ∈ sanitize_content cs, c.toNat ≤ 127 := by
  intro c hc
  simp only [sanitize_content, stripNonAscii, List.mem_filter] at hc
  exact of_decide_eq_true hc.2

/-- Witness for C6_thm at a concrete member of a concrete output. -/
theorem C6_thm_w : 'a' ∈ sanitize_content ['a'] ∧ 'a'.toNat ≤ 127 :=
  ⟨by decide, C6_thm ['a'] 'a' (by decide)⟩

/-- Counterexample for claim C6 as stated: the newline character (codepoint
10, an ASCII control character outside printable ASCII) passes through
sanitization unstripped. -/
theorem C6_cex :
    sanitize_content ['\n'] = ['\n'] ∧ '\n'.toNat < 32 := by
  decide

/-! ## Mail relay (`EmailHandler.check_emails`) -/

/-- An IMAP message as exposed by `mailbox.fetch()`: recipient list (`msg.to`,
named `to_` because `to` is reserved), sender, subject, optional plain-text
body (`msg.text`), and uid. -/
structure Message where
  to_ : List String
  from_ : String
  subject : String
  text : Option String
  uid : Nat

/-- External collaborators of one relay pass: `pa` models
`email.utils.parseaddr(·)[1]` (address-part extraction, a stdlib function
outside this repository), and `sendOk` tells whether
`context.bot.send_message(chat_id, text)` returns rather than raises. -/
structure RelayEnv where
  pa : String → String
  sendOk : Nat → List Char → Bool

/-- `str.lower()` on one character, restricted to the ASCII case mapping. -/
def charLower (c : Char) : Char :=
  if 65 ≤ c.toNat ∧ c.toNat ≤ 90 then Char.ofNat (c.toNat + 32) else c

/-- `str.lower()`, restricted to ASCII case mapping. -/
def strLower (s : String) : String := ⟨s.data.map charLower⟩

/-- The composite text block
`f"📨 New Email: {to}\nFrom: {from}\nSubject: {subj}\n\n{clean_text}"`. -/
def buildContent (to_email : String) (m : Message) (clean_text : List Char) : List Char :=
  ("📨 New Email: " ++ to_email ++ "\nFrom: " ++ m.from_ ++
    "\nSubject: " ++ m.subject ++ "\n\n").data ++ clean_text

/-- The MarkdownV2 literal-block wrapper `f"```\n{email_content}\n```"`. -/
def wrapCodeBlock (content : List Char) : List Char :=
  "```\n".data ++ content ++ "\n```".data

/-- Exceptions raised inside the per-message `try` of `check_emails`. -/
inductive RelayExc where
  | indexError
  | sendError
deriving DecidableEq, Repr

/-- The body of the per-message `try` block: recipient extraction from
`msg.to[0]` (raising on an empty recipient list), owner lookup, sanitization,
composition, truncation, wrapped delivery, and source deletion gated on the
delivery call returning.  Returns the delivered messages and deleted uids
contributed by this message. -/
def processMessage (env : RelayEnv) (st : Store) (m : Message) :
    Except RelayExc (List (Nat × List Char) × List Nat) :=
  match m.to_ with
  | [] => .error .indexError
  | r :: _ =>
    let to_email := strLower (env.pa r)
    match findOwnerByAddress st to_email with
    | none => .ok ([], [])
    | some user =>
      let clean_text := sanitize_content (m.text.getD "").data
      let email_content := truncateContent (buildContent to_email m clean_text)
      let wrapped := wrapCodeBlock email_content
      if env.sendOk user.user_id wrapped then .ok ([(user.user_id, wrapped)], [m.uid])
      else .error .sendError

/-- One full relay pass over the fetched messages: per-message exceptions are
caught and logged, contributing nothing, and the pass continues. -/
def check_emails_pass (env : RelayEnv) (st : Store) : List Message → List (Nat × List Char) × List Nat
  | [] => ([], [])
  | m :: ms =>
    let rest := check_emails_pass env st ms
    match processMessage env st m with
    | .error _ => rest
    | .ok (s, d) => (s ++ rest.1, d ++ rest.2)

/-! ## Claims C9, C10 -/

/-- Claim C9, confirmed.  A message whose extracted recipient matches no
owner in the Store contributes no delivery and no mailbox deletion, and the
rest of the pass is unaffected: the message is left untouched. -/
theorem C9_thm (env : RelayEnv) (st : Store) (ms : List Message) (m : Message)
    (r : String) (rest : List String) (hto : m.to_ = r :: rest)
    (hno : findOwnerByAddress st (strLower (env.pa r)) = none) :
    processMessage env st m = .ok ([], []) ∧
    check_emails_pass env st (m :: ms) = check_emails_pass env st ms := by
  have hp : processMessage env st m = .ok ([], []) := by
    simp [processMessage, hto, hno]
  exact ⟨hp, by simp [check_emails_pass, hp]⟩

/-- Witness for C9_thm: a concrete unmatched message against a one-owner
store. -/
theorem C9_thm_w :
    ((⟨["x@d"], "s@o", "subj", some "body", 9⟩ : Message).to_ = ["x@d"] ∧
      findOwnerByAddress [⟨1, [⟨"a@d", 5, 0⟩]⟩]
        (strLower ((fun s => s) "x@d")) = none) ∧
    processMessage ⟨fun s => s, fun _ _ => true⟩ [⟨1, [⟨"a@d", 5, 0⟩]⟩]
      ⟨["x@d"], "s@o", "subj", some "body", 9⟩ = .ok ([], []) :=
  ⟨⟨rfl, by decide⟩,
    (C9_thm ⟨fun s => s, fun _ _ => true⟩ [⟨1, [⟨"a@d", 5, 0⟩]⟩] []
      ⟨["x@d"], "s@o", "subj", some "body", 9⟩ "x@d" [] rfl (by decide)).1⟩

/-- Claim C10, confirmed.  The recipient is determined solely by the first
entry of `msg.to` (the tail is ignored), and a message with an empty
recipient list raises `IndexError` inside the per-message `try`: it is
neither delivered nor deleted and the rest of the pass continues. -/
theorem C10_thm (env : RelayEnv) (st : Store) (ms : List Message) (m : Message) :
    (m.to_ = [] →
      processMessage env st m = .error .indexError ∧
      check_emails_pass env st (m :: ms) = check_emails_pass env st ms) ∧
    (∀ (r : String) (t t' : List String) (f s : String) (x : Option String) (u : Nat),
      processMessage env st ⟨r :: t, f, s, x, u⟩ = processMessage env st ⟨r :: t', f, s, x, u⟩) := by
  constructor
  · intro h
    have hp : processMessage env st m = .error .indexError := by
      simp [processMessage, h]
    exact ⟨hp, by simp [check_emails_pass, hp]⟩
  · intro r t t' f s x u
    rfl

/-- Witness for C10_thm at a message with an empty recipient list. -/
theorem C10_thm_w :
    ((⟨[], "s@o", "subj", some "b", 3⟩ : Message).to_ = []) ∧
    processMessage ⟨fun s => s, fun _ _ => true⟩ [] ⟨[], "s@o", "subj", some "b", 3⟩ =
      .error .indexError :=
  ⟨rfl,
    ((C10_thm ⟨fun s => s, fun _ _ => true⟩ [] [] ⟨[], "s@o", "subj", some "b", 3⟩).1 rfl).1⟩

/-! ## Expiry sweep (`TempMailBot._delete_expired_emails`) -/

/-- Python's `needle in hay` on strings: prefix at some position. -/
def listIsPrefix : List Char → List Char → Bool
  | [], _ => true
  | _ :: _, [] => false
  | a :: as, b :: bs => a == b && listIsPrefix as bs

/-- Python's substring containment `needle in hay`. -/
def containsSub (needle : List Char) : List Char → Bool
  | [] => listIsPrefix needle []
  | c :: t => listIsPrefix needle (c :: t) || containsSub needle t

/-- One remote routing rule as decoded from `GET rules`: its provider id and
the `value` field of each entry of its `matchers` array. -/
structure CfRule where
  id : Nat
  matchers : List String
deriving DecidableEq, Repr

/-- The raw `requests.get(... /email/routing/rules ...)` response:
`ok` is `rules_res.ok`, and `body` is `rules_res.json().get('result', [])` —
decoding is forced only when `ok` holds and may itself raise. -/
structure HttpResp where
  ok : Bool
  body : Except String (List CfRule)

/-- The sweep's remote collaborators.  `listRules i` is the `requests.get`
issued while processing the `i`-th expired pair: `.error` models a raised
`RequestException` (the sweep wraps this call in no `try`).  `deleteRule id`
is `CloudflareManager.delete_email_rule(id)`: a `RequestException` is caught
inside it (yielding an ordinary value, which the sweep ignores), but a
non-JSON response body raises out of it, modelled by `.error`. -/
structure SweepEnv where
  listRules : Nat → Except String HttpResp
  deleteRule : Nat → Except String Bool

/-- An exception raised inside the sweep loop; `_delete_expired_emails` has
no handler, so it aborts the whole pass. -/
inductive SweepExc where
  | listRaise (msg : String)
  | bodyRaise (msg : String)
  | matcherIndex
  | deleteRaise (msg : String)
deriving DecidableEq, Repr

/-- `.isOk` for the modelled remote calls. -/
def isOkE (e : Except String Bool) : Bool :=
  match e with
  | .ok _ => true
  | .error _ => false

/-- The inner loop `for rule in rules: if email in rule['matchers'][0]['value']:
CloudflareManager.delete_email_rule(rule['id'])`: returns the ids whose delete
was issued, or the first raised exception (`matchers[0]` on an empty array,
or a raising delete). -/
def scanRules (env : SweepEnv) (email : String) : List CfRule → Except SweepExc (List Nat)
  | [] => .ok []
  | r :: rs =>
    match r.matchers with
    | [] => .error .matcherIndex
    | v :: _ =>
      if containsSub email.data v.data then
        match env.deleteRule r.id with
        | .error m => .error (.deleteRaise m)
        | .ok _ =>
          match scanRules env email rs with
          | .error e => .error e
          | .ok rest => .ok (r.id :: rest)
      else scanRules env email rs

/-- Processing of one expired `(user_id, address)` pair: list the remote
rules; when the response is ok, decode it and scan-delete; in every
non-raising case — ok or error status, deletes succeeded or not — finish by
pulling the record from the owner's document. -/
def sweepDoc (env : SweepEnv) (i : Nat) (st : Store) (uid : Nat) (email : String) :
    Except SweepExc (Store × List Nat) :=
  match env.listRules i with
  | .error m => .error (.listRaise m)
  | .ok resp =>
    if resp.ok then
      match resp.body with
      | .error m => .error (.bodyRaise m)
      | .ok rules =>
        match scanRules env email rules with
        | .error e => .error e
        | .ok dels => .ok (removeRecord st uid email, dels)
    else .ok (removeRecord st uid email, [])

/-- Observable result of one sweep pass: the final collection state, the rule
ids whose delete was issued, and the exception that aborted the pass, if
any. -/
structure SweepResult where
  store : Store
  deleted : List Nat
  exc : Option SweepExc

/-- The sweep loop over the snapshot of expired pairs.  An exception leaves
the store as mutated so far and skips every remaining pair. -/
def runSweep (env : SweepEnv) : Nat → Store → List (Nat × String) → SweepResult
  | _, st, [] => ⟨st, [], none⟩
  | i, st, d :: ds =>
    match sweepDoc env i st d.1 d.2 with
    | .error e => ⟨st, [], some e⟩
    | .ok p =>
      let r := runSweep env (i + 1) p.1 ds
      ⟨r.store, p.2 ++ r.deleted, r.exc⟩

/-- `TempMailBot._delete_expired_emails`: aggregate the expired pairs, then
sweep them. -/
def delete_expired_emails (env : SweepEnv) (st : Store) (now : Nat) : SweepResult :=
  runSweep env 0 st (findExpired st now)

/-- The `i`-th iteration raises no exception: the rule listing returns, and
if its status is ok its body decodes, every rule has a nonempty matcher
array, and no delete raises. -/
def iterOk (env : SweepEnv) (i : Nat) : Bool :=
  match env.listRules i with
  | .error _ => false
  | .ok resp =>
    if resp.ok then
      match resp.body with
      | .error _ => false
      | .ok rules => rules.all (fun r => !r.matchers.isEmpty && isOkE (env.deleteRule r.id))
    else true

/-! ### Store lemmas for the sweep -/

theorem removeRecord_map_user_id (st : Store) (uid : Nat) (addr : String) :
    (removeRecord st uid addr).map (fun u => u.user_id) = st.map (fun u => u.user_id) := by
  induction st with
  | nil => rfl
  | cons u us ih =>
    by_cases h : u.user_id = uid
    · simp [removeRecord, h]
    · simp [removeRecord, h, ih]

theorem noRecord_remove_self (st : Store) (uid : Nat) (addr : String)
    (hnd : (st.map (fun u => u.user_id)).Nodup) :
    NoRecord (removeRecord st uid addr) uid addr := by
  induction st with
  | nil => intro u hu; simp [removeRecord] at hu
  | cons v us ih =>
    simp only [List.map_cons, List.nodup_cons] at hnd
    intro u hu huid e he
    by_cases h : v.user_id = uid
    · rw [removeRecord, if_pos h] at hu
      rcases List.mem_cons.mp hu with rfl | hu'
      · have := (List.mem_filter.mp he).2
        simpa using this
      · exact absurd (h ▸ huid ▸ List.mem_map_of_mem (fun u => u.user_id) hu') hnd.1
    · rw [removeRecord, if_neg h] at hu
      rcases List.mem_cons.mp hu with rfl | hu'
      · exact absurd huid h
      · exact ih hnd.2 u hu' huid e he

theorem noRecord_remove_mono (uid : Nat) (addr : String) (uid' : Nat) (addr' : String) :
    ∀ st : Store, NoRecord st uid addr → NoRecord (removeRecord st uid' addr') uid addr := by
  intro st
  induction st with
  | nil => intro _ u hu; simp [removeRecord] at hu
  | cons v us ih =>
    intro h
    have hv := h v (List.mem_cons_self v us)
    have hus : NoRecord us uid addr := fun u hu => h u (List.mem_cons_of_mem _ hu)
    intro u hu huid e he
    by_cases hc : v.user_id = uid'
    · rw [removeRecord, if_pos hc] at hu
      rcases List.mem_cons.mp hu with rfl | hu'
      · exact hv huid e (List.mem_filter.mp he).1
      · exact hus u hu' huid e he
    · rw [removeRecord, if_neg hc] at hu
      rcases List.mem_cons.mp hu with rfl | hu'
      · exact hv huid e he
      · exact ih hus u hu' huid e he

/-- The sweep's store update for one pair, as iterated over the snapshot. -/
def sweepStep (s : Store) (d : Nat × String) : Store := removeRecord s d.1 d.2

theorem noRecord_foldl_mono (uid : Nat) (addr : String) (pairs : List (Nat × String)) :
    ∀ st : Store, NoRecord st uid addr → NoRecord (pairs.foldl sweepStep st) uid addr := by
  induction pairs with
  | nil => intro st h; exact h
  | cons p ps ih => intro st h; exact ih _ (noRecord_remove_mono uid addr p.1 p.2 st h)

theorem foldl_sweepStep_map_user_id (pairs : List (Nat × String)) :
    ∀ st : Store, (pairs.foldl sweepStep st).map (fun u => u.user_id) =
      st.map (fun u => u.user_id) := by
  induction pairs with
  | nil => intro st; rfl
  | cons p ps ih =>
    intro st
    rw [List.foldl_cons, ih, sweepStep, removeRecord_map_user_id]

theorem noRecord_foldl_of_mem (pairs : List (Nat × String)) :
    ∀ st : Store, (st.map (fun u => u.user_id)).Nodup →
      ∀ p ∈ pairs, NoRecord (pairs.foldl sweepStep st) p.1 p.2 := by
  induction pairs with
  | nil => intro st _ p hp; simp at hp
  | cons q qs ih =>
    intro st hnd p hp
    rcases List.mem_cons.mp hp with rfl | hp'
    · rw [List.foldl_cons]
      exact noRecord_foldl_mono p.1 p.2 qs _ (noRecord_remove_self st p.1 p.2 hnd)
    · rw [List.foldl_cons]
      exact ih (sweepStep st q)
        (by rw [sweepStep, removeRecord_map_user_id]; exact hnd) p hp'

/-! ### Sweep execution lemmas -/

theorem scanRules_ok (env : SweepEnv) (email : String) :
    ∀ rules : List CfRule,
      (∀ r ∈ rules, r.matchers ≠ [] ∧ isOkE (env.deleteRule r.id) = true) →
      scanRules env email rules =
        .ok ((rules.filter (fun r =>
          match r.matchers with
          | [] => false
          | v :: _ => containsSub email.data v.data)).map (fun r => r.id)) := by
  intro rules
  induction rules with
  | nil => intro _; rfl
  | cons r rs ih =>
    intro h
    obtain ⟨hm, hd⟩ := h r (List.mem_cons_self r rs)
    have hrest := ih (fun r hr => h r (List.mem_cons_of_mem _ hr))
    cases hms : r.matchers with
    | nil => exact absurd hms hm
    | cons v vs =>
      by_cases hc : containsSub email.data v.data = true
      · cases hdel : env.deleteRule r.id with
        | error m => rw [hdel] at hd; simp [isOkE] at hd
        | ok b =>
          simp only [scanRules, hms, hc, if_true, hdel, hrest, List.filter_cons,
            List.map_cons]
      · have hc' : containsSub email.data v.data = false := by simpa using hc
        simp only [scanRules, hms, hc', Bool.false_eq_true, if_false, hrest,
          List.filter_cons]

theorem iterOk_rules {env : SweepEnv} {i : Nat} {resp : HttpResp} {rules : List CfRule}
    (hi : iterOk env i = true) (hl : env.listRules i = .ok resp) (hok : resp.ok = true)
    (hb : resp.body = .ok rules) :
    ∀ r ∈ rules, r.matchers ≠ [] ∧ isOkE (env.deleteRule r.id) = true := by
  intro r hr
  simp only [iterOk, hl, hok, if_true, hb, List.all_eq_true] at hi
  have := hi r hr
  simp only [Bool.and_eq_true, Bool.not_eq_true'] at this
  exact ⟨by simpa [List.isEmpty_iff] using this.1, this.2⟩

theorem sweepDoc_ok (env : SweepEnv) (i : Nat) (st : Store) (uid : Nat) (email : String)
    (h : iterOk env i = true) :
    ∃ dels, sweepDoc env i st uid email = .ok (removeRecord st uid email, dels) := by
  cases hl : env.listRules i with
  | error m => rw [iterOk, hl] at h; exact absurd h (by simp)
  | ok resp =>
    cases hok : resp.ok with
    | false =>
      refine ⟨[], ?_⟩
      rw [sweepDoc, hl]
      simp [hok]
    | true =>
      cases hb : resp.body with
      | error m =>
        simp only [iterOk, hl, hok, if_true, hb] at h
        exact absurd h (by decide)
      | ok rules =>
        refine ⟨(rules.filter (fun r =>
          match r.matchers with
          | [] => false
          | v :: _ => containsSub email.data v.data)).map (fun r => r.id), ?_⟩
        rw [sweepDoc, hl]
        simp only [hok, if_true, hb]
        rw [scanRules_ok env email rules (iterOk_rules h hl hok hb)]

theorem runSweep_ok (env : SweepEnv) :
    ∀ (docs : List (Nat × String)) (i : Nat) (st : Store),
      (∀ j, j < docs.length → iterOk env (i + j) = true) →
      (runSweep env i st docs).exc = none ∧
      (runSweep env i st docs).store = docs.foldl sweepStep st := by
  intro docs
  induction docs with
  | nil => intro i st _; exact ⟨rfl, rfl⟩
  | cons d ds ih =>
    intro i st h
    obtain ⟨dels, hd⟩ := sweepDoc_ok env i st d.1 d.2
      (by simpa using h 0 (by simp))
    have hrest := ih (i + 1) (removeRecord st d.1 d.2)
      (fun j hj => by
        have := h (j + 1) (by simpa using Nat.succ_lt_succ hj)
        simpa [Nat.add_assoc, Nat.add_comm 1 j] using this)
    rw [runSweep, hd]
    exact ⟨hrest.1, by rw [hrest.2, List.foldl_cons]; rfl⟩

/-! ## Claims C1, C2, C3 -/

/-- Claim C1, corrected.  When no iteration of the sweep raises — the remote
list call returns a response (with ok or error status alike), its body
decodes when consulted, and no delete raises — every expired pair's record is
removed from its owner's entry, regardless of the list response's status and
of the delete outcomes.  (When the list call raises, the record is NOT
removed: see the counterexample.)  Owner ids are assumed unique in the
collection, as `update_one` upserts keyed on `user_id` guarantee. -/
theorem C1_thm (env : SweepEnv) (st : Store) (now : Nat)
    (hnd : (st.map (fun u => u.user_id)).Nodup)
    (henv : ∀ j, j < (findExpired st now).length → iterOk env j = true) :
    ∀ p ∈ findExpired st now,
      NoRecord (delete_expired_emails env st now).store p.1 p.2 := by
  have h := runSweep_ok env (findExpired st now) 0 st (by simpa using henv)
  intro p hp
  rw [delete_expired_emails, h.2]
  exact noRecord_foldl_of_mem (findExpired st now) st hnd p hp

/-- A store with one user and one record expired at `now = 10`. -/
def stW : Store := [⟨1, [⟨"a@d", 5, 0⟩]⟩]

/-- An environment whose rule listing succeeds with an empty rule list. -/
def envOkW : SweepEnv := ⟨fun _ => .ok ⟨true, .ok []⟩, fun _ => .ok true⟩

/-- Witness for C1_thm on a concrete store and environment. -/
theorem C1_thm_w :
    ((stW.map (fun u => u.user_id)).Nodup ∧ (1, "a@d") ∈ findExpired stW 10) ∧
    NoRecord (delete_expired_emails envOkW stW 10).store 1 "a@d" :=
  ⟨⟨by decide, by decide⟩,
    C1_thm envOkW stW 10 (by decide) (by decide) (1, "a@d") (by decide)⟩

/-- An environment whose rule listing always raises a transport error. -/
def envRaise : SweepEnv := ⟨fun _ => .error "ConnectionError", fun _ => .ok true⟩

/-- Counterexample for claim C1 as stated: with one pair past expiry and the
remote rule list call failing (a raised transport error, which
`_delete_expired_emails` does not catch), the record is NOT removed from the
owner's entry. -/
theorem C1_cex :
    (1, "a@d") ∈ findExpired stW 10 ∧
    envRaise.listRules 0 = .error "ConnectionError" ∧
    ¬ NoRecord (delete_expired_emails envRaise stW 10).store 1 "a@d" :=
  ⟨by decide, rfl, by decide⟩

/-- Claim C2, corrected.  Per-address failures that surface as error
responses (a non-ok rule-list status, or deletes answered with
`success: False`) never abort the pass: under a raise-free environment the
sweep finishes every expired pair with no exception.  But a raised exception
(e.g. a transport error in the uncaught `requests.get`) does abort the
remaining addresses: see the counterexample. -/
theorem C2_thm (env : SweepEnv) (st : Store) (now : Nat)
    (henv : ∀ j, j < (findExpired st now).length → iterOk env j = true) :
    (delete_expired_emails env st now).exc = none ∧
    (delete_expired_emails env st now).store =
      (findExpired st now).foldl sweepStep st :=
  runSweep_ok env (findExpired st now) 0 st (by simpa using henv)

/-- A store with two users, each with one record expired at `now = 10`. -/
def stW2 : Store := [⟨1, [⟨"a@d", 5, 0⟩]⟩, ⟨2, [⟨"b@d", 5, 0⟩]⟩]

/-- An environment whose rule listing returns an error status: the sweep
skips rule deletion but still removes each record, aborting nothing. -/
def envNotOk : SweepEnv :=
  ⟨fun _ => .ok ⟨false, .error "body never decoded"⟩, fun _ => .error "never called"⟩

/-- Witness for C2_thm: both records are swept, with no exception, although
every rule-list response carries an error status. -/
theorem C2_thm_w :
    (∀ j, j < (findExpired stW2 10).length → iterOk envNotOk j = true) ∧
    (delete_expired_emails envNotOk stW2 10).exc = none ∧
    (delete_expired_emails envNotOk stW2 10).store = [⟨1, []⟩, ⟨2, []⟩] := by
  refine ⟨by decide, (C2_thm envNotOk stW2 10 (by decide)).1, ?_⟩
  rw [(C2_thm envNotOk stW2 10 (by decide)).2]
  decide

/-- An environment that raises on the first rule listing and would succeed on
every later one. -/
def envFirstRaise : SweepEnv :=
  ⟨fun i => if i = 0 then .error "ConnectionError" else .ok ⟨true, .ok []⟩,
    fun _ => .ok true⟩

/-- Counterexample for claim C2 as stated: the raised transport error while
processing the first expired address aborts the pass — the second expired
address, whose own iteration would have succeeded (`iterOk` holds at index
1), is left unprocessed and its record stays in the store. -/
theorem C2_cex :
    (delete_expired_emails envFirstRaise stW2 10).exc = some (.listRaise "ConnectionError") ∧
    iterOk envFirstRaise 1 = true ∧
    (delete_expired_emails envFirstRaise stW2 10).store = stW2 ∧
    ¬ NoRecord (delete_expired_emails envFirstRaise stW2 10).store 2 "b@d" := by
  refine ⟨by decide, by decide, by decide, by decide⟩

/-- Claim C3, corrected.  The rules whose delete is issued for an expiring
address are exactly those whose first matcher value CONTAINS the address as
a substring (Python's `in`), not only those equal to it: an equal matcher is
deleted, but so is one containing the address as a proper substring (see the
counterexample). -/
theorem C3_thm (env : SweepEnv) (i : Nat) (st : Store) (uid : Nat) (email : String)
    (resp : HttpResp) (rules : List CfRule)
    (hl : env.listRules i = .ok resp) (hok : resp.ok = true) (hb : resp.body = .ok rules)
    (hr : ∀ r ∈ rules, r.matchers ≠ [] ∧ isOkE (env.deleteRule r.id) = true) :
    sweepDoc env i st uid email =
      .ok (removeRecord st uid email,
        (rules.filter (fun r =>
          match r.matchers with
          | [] => false
          | v :: _ => containsSub email.data v.data)).map (fun r => r.id)) := by
  rw [sweepDoc, hl]
  simp only [hok, if_true, hb]
  rw [scanRules_ok env email rules hr]

/-- Remote rules for the C3 witness: an exact match, a proper-substring
match, and a non-match for the address `a@d`. -/
def rulesW : List CfRule := [⟨1, ["a@d"]⟩, ⟨2, ["za@d!"]⟩, ⟨3, ["zzz"]⟩]

/-- An environment serving `rulesW` with every delete succeeding. -/
def envRules : SweepEnv := ⟨fun _ => .ok ⟨true, .ok rulesW⟩, fun _ => .ok true⟩

/-- Witness for C3_thm: deletes are issued exactly for the equal and the
proper-substring matchers, and the record is pulled. -/
theorem C3_thm_w :
    (∀ r ∈ rulesW, r.matchers ≠ [] ∧ isOkE (envRules.deleteRule r.id) = true) ∧
    sweepDoc envRules 0 stW 1 "a@d" = .ok ([⟨1, []⟩], [1, 2]) := by
  refine ⟨by decide, ?_⟩
  rw [C3_thm envRules 0 stW 1 "a@d" ⟨true, .ok rulesW⟩ rulesW rfl rfl rfl (by decide)]
  rfl

/-- An environment with a single remote rule whose matcher value strictly
contains the expiring address. -/
def envSub : SweepEnv := ⟨fun _ => .ok ⟨true, .ok [⟨7, ["xa@dy"]⟩]⟩, fun _ => .ok true⟩

/-- Counterexample for claim C3 as stated: sweeping the expired address
`a@d` issues a delete for rule 7, whose matcher value `xa@dy` contains the
address only as a proper substring and is not equal to it. -/
theorem C3_cex :
    (delete_expired_emails envSub stW 10).deleted = [7] ∧
    containsSub "a@d".data "xa@dy".data = true ∧
    ("a@d" : String) ≠ "xa@dy" := by
  refine ⟨by decide, by decide, by decide⟩

end TempMail
